import Mathlib

/-!
Shallow embedding of the InternAI backend authentication core
(`backend/app/core/security.py`, `backend/app/api/endpoints/auth.py`,
`backend/app/crud/user.py`, `backend/app/utils/email_service.py`,
`backend/app/models/user.py`).

Conventions of the embedding:
* Time is a `Nat` instant (`now`); `datetime.utcnow() + delta` becomes
  `now + deltaSeconds`.
* A JWT is modelled as its decoded claim set plus a `sig_ok` flag recording
  whether its signature verifies under the server key.  `jwt.encode` always
  produces `sig_ok = true`; `jwt.decode` raising `JWTError` (bad signature or
  elapsed expiry, per the jose library: expired iff `exp < now`) becomes
  returning `none`.
* The SQL store is a list of records; `scalar_one_or_none` over a keyed query
  becomes `List.find?`; a commit is the construction of the next state value,
  so a multi-statement transaction is a single state transition.
* `HTTPException` outcomes become explicit error constructors.
-/

/-- Settings.ACCESS_TOKEN_EXPIRE_MINUTES (config.py default "30"). -/
def ACCESS_TOKEN_EXPIRE_MINUTES : Nat := 30

/-- Settings.REFRESH_TOKEN_EXPIRE_DAYS (config.py, fixed 30). -/
def REFRESH_TOKEN_EXPIRE_DAYS : Nat := 30

/-- A signed JWT: claim set plus signature validity under the server key.
`sub` is the subject-id claim (`none` models a payload without "sub"),
`type` the kind discriminator claim, `exp` the expiry instant. -/
structure Token where
  sub : Option Nat
  type : Option String
  is_admin : Bool
  exp : Nat
  sig_ok : Bool
deriving DecidableEq, Repr

/-- Decoded JWT payload as read back by `jwt.decode`. -/
structure Payload where
  sub : Option Nat
  type : Option String
  is_admin : Bool
deriving DecidableEq, Repr

/-- Embeds `jwt.decode(token, SECRET_KEY, ...)`: returns the payload, or `none` when
a `JWTError` is raised — invalid signature, or expiry elapsed (the jose
library treats a token as expired iff `exp < now`). -/
def jwtDecode (t : Token) (now : Nat) : Option Payload :=
  if t.sig_ok = true ∧ now ≤ t.exp then some ⟨t.sub, t.type, t.is_admin⟩ else none

/-- security.create_access_token: payload `data` carries sub and is_admin,
expiry `now + expires_delta` (callers pass ACCESS_TOKEN_EXPIRE_MINUTES), kind
claim "access", signed with the server key. `deltaSecs` is the
`expires_delta` argument in seconds. -/
def create_access_token (sub : Nat) (is_admin : Bool) (now : Nat) (deltaSecs : Nat) : Token :=
  { sub := some sub, type := some "access", is_admin := is_admin,
    exp := now + deltaSecs, sig_ok := true }

/-- security.create_refresh_token: expiry `now + REFRESH_TOKEN_EXPIRE_DAYS`
days, kind claim "refresh" (no is_admin claim, so it reads back false). -/
def create_refresh_token (sub : Nat) (now : Nat) : Token :=
  { sub := some sub, type := some "refresh", is_admin := false,
    exp := now + REFRESH_TOKEN_EXPIRE_DAYS * 24 * 60 * 60, sig_ok := true }

/-- security.verify_refresh_token: decode, then require a "sub" claim and
kind claim exactly "refresh"; any failure yields `none`. -/
def verify_refresh_token (t : Token) (now : Nat) : Option Nat :=
  match jwtDecode t now with
  | none => none
  | some p =>
    match p.sub with
    | none => none
    | some uid => if p.type = some "refresh" then some uid else none

/-- The shared claim-set check sequence (decode, "sub" present, kind claim
equals the expected kind) that verify_refresh_token performs for "refresh"
and get_current_user_from_cookie / get_current_user_with_refresh perform
inline for "access". -/
def verify_token (t : Token) (expectedKind : String) (now : Nat) : Option Nat :=
  match jwtDecode t now with
  | none => none
  | some p =>
    match p.sub with
    | none => none
    | some uid => if p.type = some expectedKind then some uid else none

/-- models/user.py User row (the fields the auth core reads). -/
structure User where
  id : Nat
  email : String
  name : String
  hashed_password : Option String
  is_active : Bool
  is_admin : Bool
  is_verified : Bool
  google_id : Option String
deriving DecidableEq, Repr

/-- Embeds `select(User).where(User.id == user_id)` + `scalar_one_or_none`. -/
def findById (db : List User) (i : Nat) : Option User :=
  db.find? (fun u => u.id == i)

/-- Embeds `select(User).where(User.email == email)` + `scalar_one_or_none`. -/
def findByEmail (db : List User) (email : String) : Option User :=
  db.find? (fun u => u.email == email)

/-- Outcome of security.get_current_user_with_refresh: the resolved user
plus the pair of freshly minted cookies when the refresh path ran
(`set_auth_cookies` was called), or a 401 `credentials_exception`. -/
inductive ResolveResult where
  | ok (u : User) (newCookies : Option (Token × Token))
  | unauthenticated
deriving DecidableEq, Repr

/-- security.get_current_user_from_cookie: access cookie only, no refresh
fallback; `none` models the 401 `credentials_exception`. -/
def get_current_user_from_cookie (accessCookie : Option Token) (db : List User)
    (now : Nat) : Option User :=
  match accessCookie with
  | none => none
  | some t =>
    match jwtDecode t now with
    | none => none
    | some p =>
      match p.sub with
      | none => none
      | some uid =>
        if p.type ≠ some "access" then none
        else
          match findById db uid with
          | none => none
          | some u => if u.is_active then some u else none

/-- The refresh branch shared by both arms of get_current_user_with_refresh:
verify the refresh cookie, look the subject up, require active, then mint a
fresh access+refresh pair and set both cookies. -/
def refreshFlow (refreshCookie : Option Token) (db : List User) (now : Nat) :
    ResolveResult :=
  match refreshCookie with
  | none => .unauthenticated
  | some rt =>
    match verify_refresh_token rt now with
    | none => .unauthenticated
    | some uid =>
      match findById db uid with
      | none => .unauthenticated
      | some u =>
        if u.is_active then
          .ok u (some (create_access_token u.id u.is_admin now (ACCESS_TOKEN_EXPIRE_MINUTES * 60),
                       create_refresh_token u.id now))
        else .unauthenticated

/-- security.get_current_user_with_refresh.  Faithful to the Python control
flow: a missing access cookie or a `JWTError` from decoding it falls back to
the refresh flow; but once the access token decodes, a missing "sub" or a
kind claim other than "access" raises the 401 directly (the raise happens
inside the `try` and `HTTPException` is not caught by `except JWTError`),
as does a missing or inactive user. -/
def get_current_user_with_refresh (accessCookie refreshCookie : Option Token)
    (db : List User) (now : Nat) : ResolveResult :=
  match accessCookie with
  | none => refreshFlow refreshCookie db now
  | some atk =>
    match jwtDecode atk now with
    | none => refreshFlow refreshCookie db now
    | some p =>
      match p.sub with
      | none => .unauthenticated
      | some uid =>
        if p.type ≠ some "access" then .unauthenticated
        else
          match findById db uid with
          | none => .unauthenticated
          | some u => if u.is_active then .ok u none else .unauthenticated

/-- auth.py login / verify_pin / google_login token issuance: an access token
with sub = user id, is_admin = the stored flag, TTL ACCESS_TOKEN_EXPIRE_MINUTES,
and a refresh token with sub = user id. -/
def issueSession (u : User) (now : Nat) : Token × Token :=
  (create_access_token u.id u.is_admin now (ACCESS_TOKEN_EXPIRE_MINUTES * 60),
   create_refresh_token u.id now)

/-- models/user.py PendingUser row: all columns non-nullable. -/
structure PendingUser where
  email : String
  name : String
  hashed_password : String
  pin_code : String
  pin_expires : Nat
deriving DecidableEq, Repr

/-- PasswordResetToken row as used by auth.py request_password_reset /
reset_password: owning user id, sha256 hash of the raw token, expiry,
used flag.  (The model class itself lives outside the provided sources;
its fields are taken from every site that constructs or queries it.) -/
structure ResetRecord where
  user_id : Nat
  token : String
  expires_at : Nat
  is_used : Bool
deriving DecidableEq, Repr

/-- The persistent store the auth endpoints touch: users, pending_users and
password reset token rows. -/
structure AuthState where
  users : List User
  pending : List PendingUser
  resetTokens : List ResetRecord
deriving DecidableEq, Repr

/-- schemas/common.py GenericResponse. -/
structure GenericResponse where
  message : String
  success : Bool
deriving DecidableEq, Repr

/-- The HTTPException outcomes the modelled endpoints raise.
`dbUniqueViolation` models the unhandled IntegrityError that the
unique-email constraint of the users table raises out of a commit. -/
inductive AuthError where
  | notFound
  | invalidOrExpired
  | alreadyRegistered
  | internalError
  | dbUniqueViolation
deriving DecidableEq, Repr

/-- crud.get_pending_user_by_email. -/
def findPendingByEmail (pend : List PendingUser) (email : String) :
    Option PendingUser :=
  pend.find? (fun p => p.email == email)

/-- Embeds `db.delete(pending_user)` on the record found by email: remove the first
row with that email. -/
def removePendingByEmail (pend : List PendingUser) (email : String) :
    List PendingUser :=
  match pend with
  | [] => []
  | p :: ps =>
    if p.email == email then ps else p :: removePendingByEmail ps email

/-- Embeds `pending_user.pin_code = pin; pending_user.pin_expires = ...; commit`:
update the first row with that email in place. -/
def updatePendingPin (pend : List PendingUser) (email pin : String)
    (pinExpires : Nat) : List PendingUser :=
  match pend with
  | [] => []
  | p :: ps =>
    if p.email == email then { p with pin_code := pin, pin_expires := pinExpires } :: ps
    else p :: updatePendingPin ps email pin pinExpires

/-- passlib `pwd_context.hash` (bcrypt), an external one-way function; it is
modelled as an opaque injective tagging of the secret.  Nothing proved below
depends on more than it being a function of the secret. -/
def get_password_hash (password : String) : String :=
  "bcrypt$" ++ password

/-- Embeds `hashlib.sha256(...).hexdigest()`, an external one-way function; modelled
as an opaque injective tagging of the input.  Nothing proved below depends on
more than it being an injective function of the input. -/
def sha256Hex (s : String) : String :=
  "sha256$" ++ s

/-- email_service.is_pin_valid: falsy pin_code (None or empty string) or
missing expiry is invalid; an elapsed expiry (strictly in the past) is
invalid; otherwise the stored code must equal the provided code exactly. -/
def is_pin_valid (pin_code : Option String) (pin_expires : Option Nat)
    (provided_pin : String) (now : Nat) : Bool :=
  match pin_code, pin_expires with
  | some pc, some pe =>
    if pc == "" then false
    else if now > pe then false
    else pc == provided_pin
  | _, _ => false

/-- auth.py register, success-path message. -/
def registerSentResponse : GenericResponse :=
  { message := "Registration successful. Please check your email for the verification code.",
    success := true }

/-- auth.py register, message when send_verification_email returned false or
raised: registration still reports success. -/
def registerDeliveryFailedResponse : GenericResponse :=
  { message := "Registration successful, but there was an issue sending the verification email. Please try to resend the verification code.",
    success := true }

/-- auth.py resend_pin success message. -/
def resendResponse : GenericResponse :=
  { message := "Verification code sent successfully. Please check your email.",
    success := true }

/-- auth.py request_password_reset: the single response returned on every
path. -/
def resetRequestResponse : GenericResponse :=
  { message := "If an account with that email exists, you will receive a password reset link.",
    success := true }

/-- auth.py reset_password success message. -/
def resetDoneResponse : GenericResponse :=
  { message := "Password reset successful. You can now log in with your new password.",
    success := true }

/-- auth.py register (with crud.create_pending_user inlined): reject with 400
if an Identity with the email exists; delete any prior pending row for the
email; persist the new pending row (hashed password, fresh pin, expiry);
then attempt delivery — a false return or an exception from the email
service is swallowed and the endpoint still answers success.  `pin` and
`pinExpires` stand for email_service.generate_pin_code() /
get_pin_expiration(); `emailOk` is the outcome of send_verification_email. -/
def register (email name password pin : String) (pinExpires : Nat)
    (st : AuthState) (emailOk : Bool) :
    Except AuthError GenericResponse × AuthState :=
  if (findByEmail st.users email).isSome then
    (.error .alreadyRegistered, st)
  else
    let newPending : PendingUser :=
      { email := email, name := name,
        hashed_password := get_password_hash password,
        pin_code := pin, pin_expires := pinExpires }
    let st' : AuthState :=
      { st with pending := removePendingByEmail st.pending email ++ [newPending] }
    if emailOk then (.ok registerSentResponse, st')
    else (.ok registerDeliveryFailedResponse, st')

/-- auth.py resend_pin: 404 when no pending row exists; otherwise the new
pin/expiry is committed first, and only then delivery is attempted — a false
return from send_verification_email raises a 500 after the commit, so the
regenerated code stays persisted. -/
def resend_pin (email pin : String) (pinExpires : Nat) (st : AuthState)
    (emailOk : Bool) : Except AuthError GenericResponse × AuthState :=
  match findPendingByEmail st.pending email with
  | none => (.error .notFound, st)
  | some _ =>
    let st' : AuthState :=
      { st with pending := updatePendingPin st.pending email pin pinExpires }
    if emailOk then (.ok resendResponse, st')
    else (.error .internalError, st')

/-- auth.py verify_pin (with crud.create_user_from_pending inlined): 404 when
no pending row; 400 when is_pin_valid fails; otherwise insert the new User
built from the pending fields (is_verified and is_active true, is_admin
false, id assigned by the store — `newId` stands for the generated key) and
delete the pending row in the same commit.  The insert does not re-check the
unique email constraint of the users table, so if an Identity with the
pending email already exists the commit raises an unhandled IntegrityError
(modelled as `dbUniqueViolation`, state unchanged because the failed
transaction rolls back). -/
def verify_pin (email code : String) (now newId : Nat) (st : AuthState) :
    Except AuthError User × AuthState :=
  match findPendingByEmail st.pending email with
  | none => (.error .notFound, st)
  | some p =>
    if ! is_pin_valid (some p.pin_code) (some p.pin_expires) code now then
      (.error .invalidOrExpired, st)
    else if (findByEmail st.users p.email).isSome then
      (.error .dbUniqueViolation, st)
    else
      let u : User :=
        { id := newId, email := p.email, name := p.name,
          hashed_password := some p.hashed_password,
          is_active := true, is_admin := false, is_verified := true,
          google_id := none }
      (.ok u, { st with users := st.users ++ [u],
                        pending := removePendingByEmail st.pending email })

/-- auth.py request_password_reset: look the user up by email; when found,
delete every prior reset token row for that user and insert a single new row
holding only the sha256 hash of the raw token, then attempt delivery with
any exception swallowed; when not found, touch nothing.  Either way the one
success response is returned.  `raw` stands for
email_service.generate_reset_token(), `tokenExpires` for
get_reset_token_expiration(); `emailOk` is the delivery outcome (unused: the
endpoint only logs it). -/
def request_password_reset (email raw : String) (tokenExpires : Nat)
    (st : AuthState) (emailOk : Bool) :
    Except AuthError GenericResponse × AuthState :=
  match findByEmail st.users email with
  | none => (.ok resetRequestResponse, st)
  | some u =>
    let newRecord : ResetRecord :=
      { user_id := u.id, token := sha256Hex raw,
        expires_at := tokenExpires, is_used := false }
    let _ := emailOk
    (.ok resetRequestResponse,
     { st with resetTokens :=
         st.resetTokens.filter (fun r => ! (r.user_id == u.id)) ++ [newRecord] })

/-- Embeds `user.hashed_password = ...; commit` on the row keyed by the primary-key
id: replace every row carrying that id (ids are unique, so exactly one). -/
def updateById (users : List User) (u' : User) : List User :=
  users.map (fun x => if x.id == u'.id then u' else x)

/-- The WHERE clause of reset_password joined with the user row:
token = hash, is_used false, expires_at strictly in the future, and the
owning user row exists (inner join). -/
def resetMatches (users : List User) (hashed : String) (now : Nat)
    (r : ResetRecord) : Bool :=
  r.token == hashed && r.is_used == false && now < r.expires_at
    && (findById users r.user_id).isSome

/-- Embeds `result.first()` over the join, together with the in-place update of the
matched row: returns the matched record, its owner, and the token table with
that one row marked used. -/
def redeemScan (users : List User) (hashed : String) (now : Nat) :
    List ResetRecord → Option (ResetRecord × User × List ResetRecord)
  | [] => none
  | r :: rs =>
    if r.token == hashed && r.is_used == false && now < r.expires_at then
      match findById users r.user_id with
      | some u => some (r, u, { r with is_used := true } :: rs)
      | none =>
        (redeemScan users hashed now rs).map (fun t => (t.1, t.2.1, r :: t.2.2))
    else
      (redeemScan users hashed now rs).map (fun t => (t.1, t.2.1, r :: t.2.2))

/-- auth.py reset_password: hash the provided raw token, find a live matching
reset row joined to its owner; none → 400 InvalidOrExpired.  On a match the
new credential hash and the used flag are written in one commit: the result
state carries both or (on failure) neither. -/
def reset_password (raw newPassword : String) (st : AuthState) (now : Nat) :
    Except AuthError GenericResponse × AuthState :=
  let hashed := sha256Hex raw
  match redeemScan st.users hashed now st.resetTokens with
  | none => (.error .invalidOrExpired, st)
  | some (_, u, toks') =>
    let u' : User := { u with hashed_password := some (get_password_hash newPassword) }
    (.ok resetDoneResponse,
     { st with users := updateById st.users u', resetTokens := toks' })

/-- Python str.lower as used in `os.getenv("ENVIRONMENT", "development").lower()`,
modelled over the character sequence. -/
def strToLower (s : String) : String := String.mk (s.data.map Char.toLower)

/-- One Set-Cookie produced by response.set_cookie. -/
structure CookieSpec where
  key : String
  value : String
  max_age : Nat
  httponly : Bool
  secure : Bool
  samesite : String
  path : String
deriving DecidableEq, Repr

/-- security.set_auth_cookies: two set_cookie calls on the response.  `env`
is the ENVIRONMENT variable (default "development"); is_production is its
lowercase comparison with "production". -/
def set_auth_cookies (env : String) (access_token refresh_token : String) :
    List CookieSpec :=
  let is_production := strToLower env == "production"
  [{ key := "access_token", value := access_token,
     max_age := ACCESS_TOKEN_EXPIRE_MINUTES * 60,
     httponly := true, secure := is_production, samesite := "lax", path := "/" },
   { key := "refresh_token", value := refresh_token,
     max_age := REFRESH_TOKEN_EXPIRE_DAYS * 24 * 60 * 60,
     httponly := true, secure := is_production, samesite := "lax", path := "/" }]

/-! ## Concrete records used by the claim witnesses -/

def c1User : User :=
  { id := 1, email := "a@x.com", name := "Ann", hashed_password := some "h",
    is_active := true, is_admin := false, is_verified := true, google_id := none }

def c4User : User :=
  { id := 1, email := "b@x.com", name := "Bob", hashed_password := some "h",
    is_active := true, is_admin := false, is_verified := true, google_id := none }

def c4Refresh : Token := create_refresh_token 1 0

def c5User : User :=
  { id := 1, email := "c@x.com", name := "Cy", hashed_password := some "old",
    is_active := true, is_admin := false, is_verified := true, google_id := none }

def c5St : AuthState :=
  { users := [c5User], pending := [],
    resetTokens := [{ user_id := 1, token := sha256Hex "tok",
                      expires_at := 100, is_used := false }] }

def c5StUsed : AuthState :=
  { users := [{ c5User with hashed_password := some (get_password_hash "np") }],
    pending := [],
    resetTokens := [{ user_id := 1, token := sha256Hex "tok",
                      expires_at := 100, is_used := true }] }

def c6Pending : PendingUser :=
  { email := "d@x.com", name := "Dee", hashed_password := get_password_hash "pw",
    pin_code := "123456", pin_expires := 600 }

def c6St : AuthState := { users := [], pending := [c6Pending], resetTokens := [] }

def c10User : User :=
  { id := 9, email := "d@x.com", name := "Old Dee", hashed_password := none,
    is_active := true, is_admin := false, is_verified := true,
    google_id := some "g9" }

def c7User : User :=
  { id := 3, email := "g@x.com", name := "Gia", hashed_password := some "h",
    is_active := true, is_admin := false, is_verified := true, google_id := none }

def c8Pending : PendingUser :=
  { email := "e@x.com", name := "Eve", hashed_password := get_password_hash "pw",
    pin_code := "111111", pin_expires := 50 }

def c8St : AuthState := { users := [], pending := [c8Pending], resetTokens := [] }

/-! ## Helper lemmas -/

/-- Closed form of the claim-set check sequence. -/
lemma verify_token_eq_if (t : Token) (kind : String) (now : Nat) :
    verify_token t kind now =
      if t.sig_ok = true ∧ now ≤ t.exp ∧ t.type = some kind then t.sub
      else none := by
  unfold verify_token jwtDecode
  by_cases h1 : t.sig_ok = true ∧ now ≤ t.exp
  · cases hs : t.sub with
    | none =>
      by_cases h2 : t.type = some kind <;> simp [h1, h2, hs]
    | some uid =>
      by_cases h2 : t.type = some kind <;> simp [h1, h2, hs]
  · have h3 : ¬(t.sig_ok = true ∧ now ≤ t.exp ∧ t.type = some kind) := by tauto
    simp [h1, h3]

/-- verify_refresh_token is the check sequence instantiated at "refresh". -/
lemma verify_refresh_token_eq (t : Token) (now : Nat) :
    verify_refresh_token t now = verify_token t "refresh" now := rfl

/-- A keyed lookup returns a record with the looked-up id. -/
lemma findById_id_eq {db : List User} {i : Nat} {u : User}
    (h : findById db i = some u) : u.id = i := by
  have := List.find?_some h
  simpa using this

/-- A keyed lookup returns a record of the store. -/
lemma findById_mem {db : List User} {i : Nat} {u : User}
    (h : findById db i = some u) : u ∈ db :=
  List.mem_of_find?_eq_some h


/-- Any user the refresh branch returns was found by the store lookup in
that branch and was active. -/
lemma refreshFlow_ok_inv {r : Option Token} {db : List User} {now : Nat}
    {u : User} {c : Option (Token × Token)}
    (h : refreshFlow r db now = .ok u c) :
    u.is_active = true ∧ findById db u.id = some u := by
  unfold refreshFlow at h
  split at h
  · exact absurd h (by simp)
  · split at h
    · exact absurd h (by simp)
    · split at h
      · exact absurd h (by simp)
      · rename_i w hf
        split at h
        · rename_i ha
          cases h
          exact ⟨ha, by rw [findById_id_eq hf]; exact hf⟩
        · exact absurd h (by simp)

/-- When no user of the store is active the refresh branch rejects. -/
lemma refreshFlow_all_inactive {r : Option Token} {db : List User} {now : Nat}
    (hall : ∀ v ∈ db, v.is_active = false) :
    refreshFlow r db now = .unauthenticated := by
  unfold refreshFlow
  split
  · rfl
  · split
    · rfl
    · split
      · rfl
      · rename_i w hf
        simp [hall w (findById_mem hf)]

/-! ## Claim theorems -/

/-- C1: for every identity present in the store with active flag true,
minting an access/refresh pair for it (as the login endpoint does via
create_access_token / create_refresh_token) and immediately resolving the
session from those cookies through get_current_user_with_refresh succeeds
and returns the same identity, without rewriting the cookies. -/
theorem C1_issue_then_resolve (db : List User) (u : User) (now : Nat)
    (hfind : findById db u.id = some u) (hact : u.is_active = true) :
    get_current_user_with_refresh (some (issueSession u now).1)
      (some (issueSession u now).2) db now = .ok u none := by
  unfold get_current_user_with_refresh issueSession create_access_token jwtDecode
  simp [hfind, hact]

theorem C1_witness :
    get_current_user_with_refresh (some (issueSession c1User 0).1)
      (some (issueSession c1User 0).2) [c1User] 0 = .ok c1User none :=
  C1_issue_then_resolve [c1User] c1User 0 (by decide) (by decide)

/-- C2: token verification rejects — returning an unauthenticated outcome,
never an unhandled fault (the modelled verifiers are total functions into
Option) — exactly when the signature does not verify, the expiry instant has
passed, or the kind claim differs from the expected kind; in particular a
token of the wrong kind presented on either side is rejected, and an
expired token is never accepted whatever its signature. -/
theorem C2_verify_rejects (t : Token) (now : Nat) (db : List User)
    (kind : String) :
    ((t.sig_ok = false ∨ t.exp < now ∨ t.type ≠ some kind) →
        verify_token t kind now = none)
    ∧ (∀ uid : Nat, t.sub = some uid →
        (verify_token t kind now = none ↔
          (t.sig_ok = false ∨ t.exp < now ∨ t.type ≠ some kind)))
    ∧ verify_refresh_token t now = verify_token t "refresh" now
    ∧ ((t.sig_ok = false ∨ t.exp < now ∨ t.type ≠ some "access") →
        get_current_user_from_cookie (some t) db now = none) := by
  have hneg : ∀ kind' : String, (t.sig_ok = false ∨ t.exp < now ∨ t.type ≠ some kind') →
      ¬(t.sig_ok = true ∧ now ≤ t.exp ∧ t.type = some kind') := by
    rintro kind' (h | h | h) ⟨h1, h2, h3⟩
    · rw [h] at h1; exact Bool.false_ne_true h1
    · omega
    · exact h h3
  refine ⟨?_, ?_, verify_refresh_token_eq t now, ?_⟩
  · intro h
    rw [verify_token_eq_if]
    simp [hneg kind h]
  · intro uid hsub
    rw [verify_token_eq_if]
    by_cases hc : t.sig_ok = true ∧ now ≤ t.exp ∧ t.type = some kind
    · simp only [if_pos hc, hsub]
      constructor
      · intro h; exact absurd h (by simp)
      · intro h; exact absurd hc (hneg kind h)
    · simp only [if_neg hc]
      constructor
      · intro _
        by_cases h1 : t.sig_ok = true
        · by_cases h2 : now ≤ t.exp
          · exact Or.inr (Or.inr (fun h3 => hc ⟨h1, h2, h3⟩))
          · exact Or.inr (Or.inl (by omega))
        · exact Or.inl (by simpa using h1)
      · intro _; trivial
  · intro h
    have hv : verify_token t "access" now = none := by
      rw [verify_token_eq_if]
      simp [hneg "access" h]
    rw [verify_token_eq_if] at hv
    unfold get_current_user_from_cookie jwtDecode
    by_cases h1 : t.sig_ok = true ∧ now ≤ t.exp
    · cases hs : t.sub with
      | none => simp [h1, hs]
      | some uid =>
        have h3 : ¬(t.type = some "access") := by
          intro h3
          rw [if_pos ⟨h1.1, h1.2, h3⟩, hs] at hv
          exact absurd hv (by simp)
        simp [h1, hs, h3]
    · simp [h1]

theorem C2_witness :
    verify_token { sub := some 7, type := some "refresh", is_admin := false,
                   exp := 10, sig_ok := true } "access" 5 = none :=
  (C2_verify_rejects { sub := some 7, type := some "refresh", is_admin := false,
                       exp := 10, sig_ok := true } 5 [] "access").1
    (Or.inr (Or.inr (by decide)))

/-- C3: every successful resolution via get_current_user_with_refresh —
on the direct access path or on the refresh fallback — returns a user that
the store lookup of that resolution produced with active flag true; and when
the store holds no active user at all (covering the missing and the inactive
identity alike), every path rejects with the 401. -/
theorem C3_active_at_resolution (a r : Option Token) (db : List User)
    (now : Nat) :
    (∀ u c, get_current_user_with_refresh a r db now = .ok u c →
        u.is_active = true ∧ findById db u.id = some u)
    ∧ ((∀ v ∈ db, v.is_active = false) →
        get_current_user_with_refresh a r db now = .unauthenticated) := by
  constructor
  · intro u c h
    unfold get_current_user_with_refresh at h
    split at h
    · exact refreshFlow_ok_inv h
    · split at h
      · exact refreshFlow_ok_inv h
      · split at h
        · exact absurd h (by simp)
        · split at h
          · exact absurd h (by simp)
          · split at h
            · exact absurd h (by simp)
            · rename_i w hf
              split at h
              · rename_i ha
                cases h
                exact ⟨ha, by rw [findById_id_eq hf]; exact hf⟩
              · exact absurd h (by simp)
  · intro hall
    unfold get_current_user_with_refresh
    split
    · exact refreshFlow_all_inactive hall
    · split
      · exact refreshFlow_all_inactive hall
      · split
        · rfl
        · split
          · rfl
          · split
            · rfl
            · rename_i w hf
              simp [hall w (findById_mem hf)]

theorem C3_witness :
    get_current_user_with_refresh
      (some { sub := some 1, type := some "access", is_admin := false,
              exp := 100, sig_ok := true }) none
      [{ id := 1, email := "a@x.com", name := "Ann",
         hashed_password := some "h", is_active := false, is_admin := false,
         is_verified := true, google_id := none }] 0 = .unauthenticated :=
  (C3_active_at_resolution
    (some { sub := some 1, type := some "access", is_admin := false,
            exp := 100, sig_ok := true }) none
    [{ id := 1, email := "a@x.com", name := "Ann",
       hashed_password := some "h", is_active := false, is_admin := false,
       is_verified := true, google_id := none }] 0).2 (by decide)

/-- C4 counterexample: an access cookie holding a well-signed, unexpired
refresh token fails access verification (kind claim mismatch), and a valid
refresh cookie for an existing active identity is present — yet
get_current_user_with_refresh rejects with the 401 instead of succeeding:
the kind-mismatch raise happens inside the try block and is not a JWTError,
so the refresh fallback is never attempted. -/
theorem C4_counterexample :
    verify_token c4Refresh "access" 0 = none
    ∧ verify_refresh_token c4Refresh 0 = some 1
    ∧ findById [c4User] 1 = some c4User
    ∧ c4User.is_active = true
    ∧ get_current_user_with_refresh (some c4Refresh) (some c4Refresh)
        [c4User] 0 = .unauthenticated := by
  exact ⟨by decide, by decide, by decide, rfl, by decide⟩

/-- C4 (amended): the refresh fallback runs exactly when decoding the access
cookie raises a JWTError (invalid signature or elapsed expiry): then a valid
refresh cookie for an existing active identity makes resolution succeed and
rewrite both cookies with freshly minted tokens, while an absent or invalid
refresh cookie makes it reject; but when the access cookie decodes and its
subject is missing or its kind claim is not "access", resolution rejects
without attempting the refresh fallback. -/
theorem C4_amended_refresh_fallback (ta : Token) (db : List User) (now : Nat) :
    (∀ tr uid u, jwtDecode ta now = none →
        verify_refresh_token tr now = some uid →
        findById db uid = some u → u.is_active = true →
        get_current_user_with_refresh (some ta) (some tr) db now =
          .ok u (some (create_access_token u.id u.is_admin now
                         (ACCESS_TOKEN_EXPIRE_MINUTES * 60),
                       create_refresh_token u.id now)))
    ∧ (jwtDecode ta now = none →
        get_current_user_with_refresh (some ta) none db now = .unauthenticated)
    ∧ (∀ tr, jwtDecode ta now = none → verify_refresh_token tr now = none →
        get_current_user_with_refresh (some ta) (some tr) db now =
          .unauthenticated)
    ∧ (∀ p, jwtDecode ta now = some p → (p.sub = none ∨ p.type ≠ some "access") →
        ∀ r, get_current_user_with_refresh (some ta) r db now =
          .unauthenticated) := by
  refine ⟨?_, ?_, ?_, ?_⟩
  · intro tr uid u hd hv hf ha
    simp [get_current_user_with_refresh, refreshFlow, hd, hv, hf, ha]
  · intro hd
    simp [get_current_user_with_refresh, refreshFlow, hd]
  · intro tr hd hv
    simp [get_current_user_with_refresh, refreshFlow, hd, hv]
  · intro p hd hbad r
    rcases hbad with hs | ht
    · simp [get_current_user_with_refresh, hd, hs]
    · cases hps : p.sub with
      | none => simp [get_current_user_with_refresh, hd, hps]
      | some uid => simp [get_current_user_with_refresh, hd, hps, ht]

theorem C4_witness :
    get_current_user_with_refresh
      (some (create_access_token 1 false 0 (ACCESS_TOKEN_EXPIRE_MINUTES * 60)))
      (some (create_refresh_token 1 1000)) [c4User] 2000 =
      .ok c4User (some (create_access_token 1 false 2000
                          (ACCESS_TOKEN_EXPIRE_MINUTES * 60),
                        create_refresh_token 1 2000)) :=
  (C4_amended_refresh_fallback
      (create_access_token 1 false 0 (ACCESS_TOKEN_EXPIRE_MINUTES * 60))
      [c4User] 2000).1
    (create_refresh_token 1 1000) 1 c4User (by decide) (by decide) (by decide) rfl

/-- The WHERE-plus-join condition in Prop form. -/
lemma resetMatches_eq_true_iff (users : List User) (hashed : String)
    (now : Nat) (x : ResetRecord) :
    resetMatches users hashed now x = true ↔
      (x.token = hashed ∧ x.is_used = false ∧ now < x.expires_at
        ∧ (findById users x.user_id).isSome = true) := by
  simp [resetMatches, and_assoc]

/-- When no row satisfies the WHERE-plus-join condition the scan finds
nothing. -/
lemma redeemScan_eq_none (users : List User) (hashed : String) (now : Nat)
    (toks : List ResetRecord)
    (h : ∀ x ∈ toks, resetMatches users hashed now x = false) :
    redeemScan users hashed now toks = none := by
  induction toks with
  | nil => rfl
  | cons a as ih =>
    have ha := h a (List.mem_cons_self a as)
    have hrest : ∀ x ∈ as, resetMatches users hashed now x = false :=
      fun x hx => h x (List.mem_cons_of_mem a hx)
    unfold redeemScan
    split
    · rename_i hc
      cases hf : findById users a.user_id with
      | some w =>
        exfalso
        have : resetMatches users hashed now a = true := by
          simp only [resetMatches, hf]
          simp only [Bool.and_eq_true] at hc ⊢
          exact ⟨hc, rfl⟩
        rw [this] at ha
        simp at ha
      | none => rw [ih hrest]; rfl
    · rw [ih hrest]; rfl

/-- What a successful scan guarantees: the returned row was a live matching
row of the table joined to its owner, the output table carries that row
marked used, and — when at most one row carries the hash — the output table
has no live row with the hash left. -/
lemma redeemScan_some_spec (users : List User) (hashed : String) (now : Nat)
    (toks : List ResetRecord) :
    ∀ {r : ResetRecord} {u : User} {toks' : List ResetRecord},
      redeemScan users hashed now toks = some (r, u, toks') →
      r ∈ toks
      ∧ (r.token = hashed ∧ r.is_used = false ∧ now < r.expires_at)
      ∧ findById users r.user_id = some u
      ∧ ({ r with is_used := true }) ∈ toks'
      ∧ (toks.countP (fun x => x.token == hashed) ≤ 1 →
          ∀ x ∈ toks', ¬(x.token = hashed ∧ x.is_used = false)) := by
  induction toks with
  | nil => intro r u t h; simp [redeemScan] at h
  | cons a as ih =>
    intro r u t h
    unfold redeemScan at h
    split at h
    · rename_i hc
      simp only [Bool.and_eq_true, beq_iff_eq, decide_eq_true_eq] at hc
      cases hf : findById users a.user_id with
      | some w =>
        rw [hf] at h
        rw [Option.some.injEq] at h
        obtain ⟨h1, h2, h3⟩ : a = r ∧ w = u ∧ { a with is_used := true } :: as = t := by
          simpa [Prod.ext_iff] using h
        subst h1; subst h2; subst h3
        refine ⟨List.mem_cons_self a as, ⟨hc.1.1, hc.1.2, hc.2⟩, hf,
          List.mem_cons_self _ as, ?_⟩
        intro hcount x hx
        have hpa : (fun x : ResetRecord => x.token == hashed) a = true := by
          simpa using hc.1.1
        rw [List.countP_cons] at hcount
        simp only [hpa, if_true] at hcount
        have hz : as.countP (fun x => x.token == hashed) = 0 := by omega
        have hnone : ∀ y ∈ as, y.token ≠ hashed := by
          intro y hy
          have := List.countP_eq_zero.mp hz y hy
          simpa using this
        rcases List.mem_cons.mp hx with hx1 | hx2
        · subst hx1; rintro ⟨-, hu⟩; simp at hu
        · rintro ⟨ht, -⟩; exact hnone x hx2 ht
      | none =>
        rw [hf] at h
        cases hs2 : redeemScan users hashed now as with
        | none => rw [hs2] at h; simp at h
        | some trip =>
          obtain ⟨r0, u0, t0⟩ := trip
          rw [hs2] at h
          simp only [Option.map_some'] at h
          rw [Option.some.injEq] at h
          obtain ⟨h1, h2, h3⟩ : r0 = r ∧ u0 = u ∧ a :: t0 = t := by
            simpa [Prod.ext_iff] using h
          subst h1; subst h2; subst h3
          obtain ⟨hmem, hcond, hfind, hmem', hcnt⟩ := ih hs2
          refine ⟨List.mem_cons_of_mem a hmem, hcond, hfind,
            List.mem_cons_of_mem _ hmem', ?_⟩
          intro hcount x hx
          have hpa : (fun x : ResetRecord => x.token == hashed) a = true := by
            simpa using hc.1.1
          rw [List.countP_cons] at hcount
          simp only [hpa, if_true] at hcount
          exfalso
          have hpos : 0 < as.countP (fun x => x.token == hashed) :=
            List.countP_pos_iff.mpr ⟨_, hmem, by simpa using hcond.1⟩
          omega
    · rename_i hc
      cases hs2 : redeemScan users hashed now as with
      | none => rw [hs2] at h; simp at h
      | some trip =>
        obtain ⟨r0, u0, t0⟩ := trip
        rw [hs2] at h
        simp only [Option.map_some'] at h
        rw [Option.some.injEq] at h
        obtain ⟨h1, h2, h3⟩ : r0 = r ∧ u0 = u ∧ a :: t0 = t := by
          simpa [Prod.ext_iff] using h
        subst h1; subst h2; subst h3
        obtain ⟨hmem, hcond, hfind, hmem', hcnt⟩ := ih hs2
        refine ⟨List.mem_cons_of_mem a hmem, hcond, hfind,
          List.mem_cons_of_mem _ hmem', ?_⟩
        intro hcount x hx
        by_cases hpa : (fun x : ResetRecord => x.token == hashed) a = true
        · rw [List.countP_cons] at hcount
          simp only [hpa, if_true] at hcount
          exfalso
          have hpos : 0 < as.countP (fun x => x.token == hashed) :=
            List.countP_pos_iff.mpr ⟨_, hmem, by simpa using hcond.1⟩
          omega
        · rw [List.countP_cons] at hcount
          simp only [hpa, if_false] at hcount
          rcases List.mem_cons.mp hx with hx1 | hx2
          · subst hx1
            rintro ⟨ht, -⟩
            exact hpa (by simpa using ht)
          · exact hcnt hcount x hx2

/-- Updating the row keyed by an id is observed by the keyed lookup. -/
lemma findById_updateById (users : List User) (u u' : User)
    (h : findById users u.id = some u) (hid : u'.id = u.id) :
    findById (updateById users u') u.id = some u' := by
  induction users with
  | nil => simp [findById] at h
  | cons x xs ih =>
    unfold findById at h ⊢
    unfold updateById
    by_cases hx : (x.id == u.id) = true
    · have hcond : (x.id == u'.id) = true := by rw [hid]; exact hx
      simp only [List.map_cons, List.find?_cons, hcond, if_true]
      simp [hid]
    · have hx' : (x.id == u.id) = false := by
        cases hb : (x.id == u.id) with
        | true => exact absurd hb hx
        | false => rfl
      have hcond : (x.id == u'.id) = false := by rw [hid]; exact hx'
      simp only [List.map_cons, List.find?_cons, hcond, hx', Bool.false_eq_true,
        if_false]
      have h2 : List.find? (fun y : User => y.id == u.id) xs = some u := by
        simpa [List.find?_cons, hx'] using h
      exact ih h2

/-- A row that fails the WHERE-plus-join condition in Prop form fails it as
a Bool. -/
lemma resetMatches_eq_false_of_not (users : List User) (hashed : String)
    (now : Nat) (x : ResetRecord)
    (h : ¬(x.token = hashed ∧ x.is_used = false ∧ now < x.expires_at
            ∧ (findById users x.user_id).isSome = true)) :
    resetMatches users hashed now x = false := by
  cases hm : resetMatches users hashed now x with
  | false => rfl
  | true => exact absurd ((resetMatches_eq_true_iff users hashed now x).mp hm) h

/-- C5: redeeming a recovery token succeeds at most once.  When no stored
row carries the hash of the submitted raw token with used flag false and
expiry strictly in the future (joined to an existing owner), reset_password
fails with the InvalidOrExpired outcome and leaves the store unchanged; on
success the resulting state carries, in the one commit, both the owner
credential updated to the hash of the new secret and the matched row marked
used; and — the stored hashes being unique, as guaranteed by the
delete-then-insert of request_password_reset over randomly drawn tokens — a
second redemption of the same raw token against the resulting state fails
with InvalidOrExpired whatever the time and new secret. -/
theorem C5_redeem_single_use (raw newPassword : String) (st : AuthState)
    (now : Nat) :
    ((∀ x ∈ st.resetTokens,
        ¬(x.token = sha256Hex raw ∧ x.is_used = false ∧ now < x.expires_at
            ∧ (findById st.users x.user_id).isSome = true)) →
      reset_password raw newPassword st now = (.error .invalidOrExpired, st))
    ∧ (∀ resp st', reset_password raw newPassword st now = (.ok resp, st') →
        ∃ r u, r ∈ st.resetTokens
          ∧ r.token = sha256Hex raw ∧ r.is_used = false ∧ now < r.expires_at
          ∧ findById st.users r.user_id = some u
          ∧ findById st'.users u.id =
              some { u with hashed_password := some (get_password_hash newPassword) }
          ∧ ({ r with is_used := true }) ∈ st'.resetTokens)
    ∧ (st.resetTokens.countP (fun x => x.token == sha256Hex raw) ≤ 1 →
        ∀ resp st', reset_password raw newPassword st now = (.ok resp, st') →
          ∀ newPw2 now2,
            reset_password raw newPw2 st' now2 =
              (.error .invalidOrExpired, st')) := by
  refine ⟨?_, ?_, ?_⟩
  · intro h
    have hscan := redeemScan_eq_none st.users (sha256Hex raw) now st.resetTokens
      (fun x hx => resetMatches_eq_false_of_not _ _ _ _ (h x hx))
    simp [reset_password, hscan]
  · intro resp st' h
    simp only [reset_password] at h
    cases hscan : redeemScan st.users (sha256Hex raw) now st.resetTokens with
    | none => rw [hscan] at h; exact absurd h (by simp)
    | some trip =>
      obtain ⟨r0, u0, t0⟩ := trip
      rw [hscan] at h
      have spec := redeemScan_some_spec st.users (sha256Hex raw) now
        st.resetTokens hscan
      have hst : st' = { st with
          users := updateById st.users
            { u0 with hashed_password := some (get_password_hash newPassword) },
          resetTokens := t0 } := by
        have := congrArg Prod.snd h
        simpa using this.symm
      subst hst
      have hid0 : u0.id = r0.user_id := findById_id_eq spec.2.2.1
      refine ⟨r0, u0, spec.1, spec.2.1.1, spec.2.1.2.1, spec.2.1.2.2, spec.2.2.1,
        ?_, ?_⟩
      · exact findById_updateById st.users u0 _ (by rw [hid0]; exact spec.2.2.1) rfl
      · exact spec.2.2.2.1
  · intro hcount resp st' h newPw2 now2
    simp only [reset_password] at h
    cases hscan : redeemScan st.users (sha256Hex raw) now st.resetTokens with
    | none => rw [hscan] at h; exact absurd h (by simp)
    | some trip =>
      obtain ⟨r0, u0, t0⟩ := trip
      rw [hscan] at h
      have spec := redeemScan_some_spec st.users (sha256Hex raw) now
        st.resetTokens hscan
      have hst : st' = { st with
          users := updateById st.users
            { u0 with hashed_password := some (get_password_hash newPassword) },
          resetTokens := t0 } := by
        have := congrArg Prod.snd h
        simpa using this.symm
      subst hst
      have hnl := spec.2.2.2.2 hcount
      have hscan2 : redeemScan
          (updateById st.users
            { u0 with hashed_password := some (get_password_hash newPassword) })
          (sha256Hex raw) now2 t0 = none := by
        apply redeemScan_eq_none
        intro x hx
        apply resetMatches_eq_false_of_not
        rintro ⟨ht, hu, -, -⟩
        exact hnl x hx ⟨ht, hu⟩
      simp [reset_password, hscan2]

theorem C5_witness :
    reset_password "tok" "np2" c5StUsed 50 = (.error .invalidOrExpired, c5StUsed) :=
  (C5_redeem_single_use "tok" "np" c5St 0).2.2 (by decide)
    resetDoneResponse c5StUsed (by rfl) "np2" 50

/-- A pending-row lookup returns a row with the looked-up email. -/
lemma findPending_email_eq {pend : List PendingUser} {email : String}
    {p : PendingUser} (h : findPendingByEmail pend email = some p) :
    p.email = email := by
  have := List.find?_some h
  simpa using this

/-- Deleting the row found by email leaves no row with that email when the
unique-email constraint held (at most one such row). -/
lemma findPending_remove_of_unique {pend : List PendingUser} {email : String}
    {p : PendingUser} (h : findPendingByEmail pend email = some p)
    (hcount : pend.countP (fun q => q.email == email) ≤ 1) :
    findPendingByEmail (removePendingByEmail pend email) email = none := by
  induction pend with
  | nil => simp [findPendingByEmail] at h
  | cons a as ih =>
    by_cases ha : (a.email == email) = true
    · have hrem : removePendingByEmail (a :: as) email = as := by
        simp [removePendingByEmail, ha]
      rw [hrem]
      rw [List.countP_cons] at hcount
      simp only [ha, if_true] at hcount
      have hz : as.countP (fun q => q.email == email) = 0 := by omega
      unfold findPendingByEmail
      rw [List.find?_eq_none]
      intro x hx
      have := List.countP_eq_zero.mp hz x hx
      simpa using this
    · have ha' : (a.email == email) = false := by
        cases hb : (a.email == email) with
        | true => exact absurd hb ha
        | false => rfl
      have hrem : removePendingByEmail (a :: as) email =
          a :: removePendingByEmail as email := by
        simp [removePendingByEmail, ha']
      rw [hrem]
      have h2 : findPendingByEmail as email = some p := by
        simpa [findPendingByEmail, List.find?_cons, ha'] using h
      rw [List.countP_cons] at hcount
      simp only [ha', if_false] at hcount
      have := ih h2 (by omega)
      simpa [findPendingByEmail, List.find?_cons, ha'] using this

/-- Appending a row whose email matches is found once no earlier row
matches. -/
lemma findByEmail_append_single (users : List User) (u : User) (email : String)
    (hnone : findByEmail users email = none) (hu : u.email = email) :
    findByEmail (users ++ [u]) email = some u := by
  induction users with
  | nil => simp [findByEmail, List.find?_cons, hu]
  | cons x xs ih =>
    by_cases hx : (x.email == email) = true
    · exfalso; simp [findByEmail, List.find?_cons, hx] at hnone
    · have hx' : (x.email == email) = false := by
        cases hb : (x.email == email) with
        | true => exact absurd hb hx
        | false => rfl
      have h2 : findByEmail xs email = none := by
        simpa [findByEmail, List.find?_cons, hx'] using hnone
      have := ih h2
      simpa [findByEmail, List.find?_cons, hx'] using this

/-- The stored code must match exactly and the expiry must not have passed. -/
lemma is_pin_valid_eq_false (pc : String) (pe : Nat) (code : String)
    (now : Nat) (h : pc ≠ code ∨ pe < now) :
    is_pin_valid (some pc) (some pe) code now = false := by
  unfold is_pin_valid
  by_cases h1 : (pc == "") = true
  · simp [h1]
  · have h1' : (pc == "") = false := by
      cases hb : (pc == "") with
      | true => exact absurd hb h1
      | false => rfl
    rcases h with h | h
    · by_cases h2 : now > pe
      · simp [h1', h2]
      · simp [h1', h2]
        exact h
    · have h2 : now > pe := h
      simp [h1', h2]

/-- A non-empty matching code before expiry is accepted. -/
lemma is_pin_valid_eq_true (pc : String) (pe : Nat) (code : String)
    (now : Nat) (h1 : pc = code) (h2 : pc ≠ "") (h3 : now ≤ pe) :
    is_pin_valid (some pc) (some pe) code now = true := by
  unfold is_pin_valid
  subst h1
  have h2' : (pc == "") = false := by simpa using h2
  have h3' : ¬(now > pe) := by omega
  simp [h2', h3']

/-- C6: registration confirmation fails with NotFound when no pending row
exists for the email; fails with InvalidOrExpired when the stored code is
not exactly the submitted code or the stored expiry has passed; and with the
correct (system-generated, hence non-empty) code before expiry — and no
verified identity already occupying the email, the case claim C10 covers —
it succeeds, producing in one commit a state where the new identity
(verified and active, built from the pending fields) is observable and the
pending row is not; under the unique-email constraint a second confirmation
then fails with NotFound. -/
theorem C6_confirm_once (email code : String) (now newId : Nat)
    (st : AuthState) :
    (findPendingByEmail st.pending email = none →
        verify_pin email code now newId st = (.error .notFound, st))
    ∧ (∀ p, findPendingByEmail st.pending email = some p →
        (p.pin_code ≠ code ∨ p.pin_expires < now) →
        verify_pin email code now newId st = (.error .invalidOrExpired, st))
    ∧ (∀ p, findPendingByEmail st.pending email = some p →
        p.pin_code = code → p.pin_code ≠ "" → now ≤ p.pin_expires →
        findByEmail st.users email = none →
        ∃ u st', verify_pin email code now newId st = (.ok u, st')
          ∧ u.email = p.email ∧ u.name = p.name
          ∧ u.hashed_password = some p.hashed_password
          ∧ u.is_verified = true ∧ u.is_active = true
          ∧ st'.users = st.users ++ [u]
          ∧ findByEmail st'.users email = some u
          ∧ st'.pending = removePendingByEmail st.pending email
          ∧ (st.pending.countP (fun q => q.email == email) ≤ 1 →
              findPendingByEmail st'.pending email = none
              ∧ ∀ code2 now2 newId2,
                  verify_pin email code2 now2 newId2 st' =
                    (.error .notFound, st'))) := by
  refine ⟨?_, ?_, ?_⟩
  · intro h
    simp [verify_pin, h]
  · intro p hp hbad
    simp [verify_pin, hp, is_pin_valid_eq_false p.pin_code p.pin_expires code now hbad]
  · intro p hp h1 h2 h3 hnouser
    have hpe : p.email = email := findPending_email_eq hp
    have hvalid := is_pin_valid_eq_true p.pin_code p.pin_expires code now h1 h2 h3
    have hnop : findByEmail st.users p.email = none := by rw [hpe]; exact hnouser
    refine ⟨{ id := newId, email := p.email, name := p.name,
              hashed_password := some p.hashed_password,
              is_active := true, is_admin := false, is_verified := true,
              google_id := none },
            { st with
              users := st.users ++
                [{ id := newId, email := p.email, name := p.name,
                   hashed_password := some p.hashed_password,
                   is_active := true, is_admin := false, is_verified := true,
                   google_id := none }],
              pending := removePendingByEmail st.pending email },
            ?_, rfl, rfl, rfl, rfl, rfl, rfl, ?_, rfl, ?_⟩
    · simp [verify_pin, hp, hvalid, hnop]
    · exact findByEmail_append_single st.users _ email hnouser hpe
    · intro hcount
      have hgone := findPending_remove_of_unique hp hcount
      exact ⟨hgone, fun code2 now2 newId2 => by simp [verify_pin, hgone]⟩

theorem C6_witness :
    ∃ u st', verify_pin "d@x.com" "123456" 0 1 c6St = (.ok u, st')
      ∧ u.email = c6Pending.email ∧ u.name = c6Pending.name
      ∧ u.hashed_password = some c6Pending.hashed_password
      ∧ u.is_verified = true ∧ u.is_active = true
      ∧ st'.users = c6St.users ++ [u]
      ∧ findByEmail st'.users "d@x.com" = some u
      ∧ st'.pending = removePendingByEmail c6St.pending "d@x.com"
      ∧ (c6St.pending.countP (fun q => q.email == "d@x.com") ≤ 1 →
          findPendingByEmail st'.pending "d@x.com" = none
          ∧ ∀ code2 now2 newId2,
              verify_pin "d@x.com" code2 now2 newId2 st' =
                (.error .notFound, st')) :=
  (C6_confirm_once "d@x.com" "123456" 0 1 c6St).2.2 c6Pending (by decide)
    (by decide) (by decide) (by decide) (by decide)

/-- C10: create_user_from_pending inserts the new identity without
re-checking the unique-email constraint of the users table, so whenever an
identity with the pending email already exists (e.g. created through
federated login between registration and confirmation), confirmation with a
valid unexpired code runs into the unhandled unique-constraint database
error (modelled by the dbUniqueViolation outcome) instead of NotFound,
InvalidOrExpired or success. -/
theorem C10_unchecked_duplicate_insert (email code : String) (now newId : Nat)
    (st : AuthState) :
    ∀ p eu, findPendingByEmail st.pending email = some p →
      is_pin_valid (some p.pin_code) (some p.pin_expires) code now = true →
      findByEmail st.users p.email = some eu →
      verify_pin email code now newId st = (.error .dbUniqueViolation, st) := by
  intro p eu hp hv he
  simp [verify_pin, hp, hv, he]

theorem C10_witness :
    verify_pin "d@x.com" "123456" 0 1
      { users := [c10User], pending := [c6Pending], resetTokens := [] } =
      (.error .dbUniqueViolation,
       { users := [c10User], pending := [c6Pending], resetTokens := [] }) :=
  C10_unchecked_duplicate_insert "d@x.com" "123456" 0 1
    { users := [c10User], pending := [c6Pending], resetTokens := [] }
    c6Pending c10User (by decide) (by decide) (by decide)

/-- C7: the recovery request answers with the one fixed success response on
every input, whether or not the email matches an identity; when it does not
match, the state is untouched (no RecoveryToken row is created); when it
matches, every prior row for that identity is deleted before the single new
row — holding only the sha256 hash of the raw token — is inserted, so the
rows for that identity in the result are exactly the one new hashed row. -/
theorem C7_enumeration_resistance (email raw : String) (tokenExpires : Nat)
    (st : AuthState) (emailOk : Bool) :
    ((request_password_reset email raw tokenExpires st emailOk).1 =
        .ok resetRequestResponse)
    ∧ (findByEmail st.users email = none →
        request_password_reset email raw tokenExpires st emailOk =
          (.ok resetRequestResponse, st))
    ∧ (∀ u, findByEmail st.users email = some u →
        ∃ st', request_password_reset email raw tokenExpires st emailOk =
            (.ok resetRequestResponse, st')
          ∧ st'.resetTokens.filter (fun x => x.user_id == u.id) =
              [{ user_id := u.id, token := sha256Hex raw,
                 expires_at := tokenExpires, is_used := false }]
          ∧ st'.users = st.users ∧ st'.pending = st.pending) := by
  refine ⟨?_, ?_, ?_⟩
  · cases hf : findByEmail st.users email with
    | none => simp [request_password_reset, hf]
    | some u => simp [request_password_reset, hf]
  · intro hf
    simp [request_password_reset, hf]
  · intro u hf
    refine ⟨{ st with resetTokens :=
        st.resetTokens.filter (fun x => ! (x.user_id == u.id)) ++
          [{ user_id := u.id, token := sha256Hex raw,
             expires_at := tokenExpires, is_used := false }] },
      by simp [request_password_reset, hf], ?_, rfl, rfl⟩
    have hnil : (st.resetTokens.filter
        (fun x => ! (x.user_id == u.id))).filter
          (fun x => x.user_id == u.id) = [] := by
      rw [List.filter_eq_nil_iff]
      intro x hx
      have := List.of_mem_filter hx
      simpa using this
    rw [List.filter_append, hnil]
    simp

theorem C7_witness :
    request_password_reset "ghost@x.com" "raw" 500
      { users := [c7User], pending := [], resetTokens := [] } true =
      (.ok resetRequestResponse,
       { users := [c7User], pending := [], resetTokens := [] }) :=
  (C7_enumeration_resistance "ghost@x.com" "raw" 500
    { users := [c7User], pending := [], resetTokens := [] } true).2.1 (by decide)

/-- The in-place pin update of the row found by email leaves the updated row
in the table. -/
lemma updatePendingPin_mem {pend : List PendingUser} {email : String}
    {p : PendingUser} (pin : String) (pinExpires : Nat)
    (h : findPendingByEmail pend email = some p) :
    ({ p with pin_code := pin, pin_expires := pinExpires }) ∈
      updatePendingPin pend email pin pinExpires := by
  induction pend with
  | nil => simp [findPendingByEmail] at h
  | cons a as ih =>
    by_cases ha : (a.email == email) = true
    · have hap : a = p := by
        simpa [findPendingByEmail, List.find?_cons, ha] using h
      subst hap
      have hrem : updatePendingPin (a :: as) email pin pinExpires =
          { a with pin_code := pin, pin_expires := pinExpires } ::
            as := by
        simp [updatePendingPin, ha]
      rw [hrem]
      exact List.mem_cons_self _ _
    · have ha' : (a.email == email) = false := by
        cases hb : (a.email == email) with
        | true => exact absurd hb ha
        | false => rfl
      have h2 : findPendingByEmail as email = some p := by
        simpa [findPendingByEmail, List.find?_cons, ha'] using h
      have hrem : updatePendingPin (a :: as) email pin pinExpires =
          a :: updatePendingPin as email pin pinExpires := by
        simp [updatePendingPin, ha']
      rw [hrem]
      exact List.mem_cons_of_mem a (ih h2)

/-- C8 counterexample: a pending registration exists for the email, yet when
delivery of the regenerated code fails, the resend endpoint does not report
success to the caller — it raises the 500 internal error (after having
committed the new code). -/
theorem C8_counterexample :
    (findPendingByEmail c8St.pending "e@x.com").isSome = true
    ∧ (resend_pin "e@x.com" "222222" 99 c8St false).1 = .error .internalError := by
  exact ⟨by decide, by rfl⟩

/-- C8 (amended): a delivery failure never rolls back the record persisted
before delivery, and for registration and for the recovery request the
operation still reports success to the caller; the verification-code resend
is the exception — its regenerated code stays persisted, but the caller
receives the 500 internal error instead of success. -/
theorem C8_amended_delivery (st : AuthState) :
    (∀ email name password pin pinExpires,
        findByEmail st.users email = none →
        (register email name password pin pinExpires st false).1 =
            .ok registerDeliveryFailedResponse
        ∧ ({ email := email, name := name,
             hashed_password := get_password_hash password,
             pin_code := pin, pin_expires := pinExpires } : PendingUser) ∈
            ((register email name password pin pinExpires st false).2).pending)
    ∧ (∀ email raw tokenExpires u, findByEmail st.users email = some u →
        (request_password_reset email raw tokenExpires st false).1 =
            .ok resetRequestResponse
        ∧ ({ user_id := u.id, token := sha256Hex raw,
             expires_at := tokenExpires, is_used := false } : ResetRecord) ∈
            ((request_password_reset email raw tokenExpires st false).2).resetTokens)
    ∧ (∀ email pin pinExpires p, findPendingByEmail st.pending email = some p →
        resend_pin email pin pinExpires st false =
          (.error .internalError,
           { st with pending := updatePendingPin st.pending email pin pinExpires })
        ∧ ({ p with pin_code := pin, pin_expires := pinExpires }) ∈
            updatePendingPin st.pending email pin pinExpires) := by
  refine ⟨?_, ?_, ?_⟩
  · intro email name password pin pinExpires hnone
    constructor
    · simp [register, hnone]
    · simp [register, hnone]
  · intro email raw tokenExpires u hu
    constructor
    · simp [request_password_reset, hu]
    · simp [request_password_reset, hu]
  · intro email pin pinExpires p hp
    constructor
    · simp [resend_pin, hp]
    · exact updatePendingPin_mem pin pinExpires hp

theorem C8_witness :
    resend_pin "e@x.com" "222222" 99 c8St false =
      (.error .internalError,
       { c8St with pending := updatePendingPin c8St.pending "e@x.com" "222222" 99 }) :=
  ((C8_amended_delivery c8St).2.2 "e@x.com" "222222" 99 c8Pending (by decide)).1

/-- C9: binding a session sets exactly two cookies — access then refresh —
carrying the token strings, each HttpOnly, SameSite lax, path-scoped to the
whole application, with max-age equal to the corresponding token TTL in
seconds (the same quantity create_access_token / create_refresh_token add
to now for the expiry), and with the Secure attribute exactly when the
ENVIRONMENT value designates the production (non-local) deployment. -/
theorem C9_cookie_contract (env a r : String) :
    (set_auth_cookies env a r).length = 2
    ∧ (set_auth_cookies env a r).map CookieSpec.key =
        ["access_token", "refresh_token"]
    ∧ (set_auth_cookies env a r).map CookieSpec.value = [a, r]
    ∧ (set_auth_cookies env a r).map CookieSpec.max_age =
        [ACCESS_TOKEN_EXPIRE_MINUTES * 60,
         REFRESH_TOKEN_EXPIRE_DAYS * 24 * 60 * 60]
    ∧ (∀ c ∈ set_auth_cookies env a r,
        c.httponly = true ∧ c.samesite = "lax" ∧ c.path = "/"
        ∧ (c.secure = true ↔ strToLower env = "production"))
    ∧ (∀ now sub adm,
        (create_access_token sub adm now (ACCESS_TOKEN_EXPIRE_MINUTES * 60)).exp =
          now + ACCESS_TOKEN_EXPIRE_MINUTES * 60
        ∧ (create_refresh_token sub now).exp =
          now + REFRESH_TOKEN_EXPIRE_DAYS * 24 * 60 * 60) := by
  refine ⟨rfl, rfl, rfl, rfl, ?_, ?_⟩
  · intro c hc
    simp only [set_auth_cookies, List.mem_cons, List.not_mem_nil, or_false] at hc
    rcases hc with hc | hc <;> subst hc <;> exact ⟨rfl, rfl, rfl, by simp⟩
  · intro now sub adm
    exact ⟨rfl, rfl⟩

theorem C9_witness :
    ({ key := "access_token", value := "A",
       max_age := ACCESS_TOKEN_EXPIRE_MINUTES * 60, httponly := true,
       secure := true, samesite := "lax", path := "/" } : CookieSpec).httponly =
      true :=
  ((C9_cookie_contract "production" "A" "R").2.2.2.2.1 _ (by decide)).1
